import Mathlib

/-!
Verification of the MSG_Analyser repository against its natural-language
specification.

The repository contains three evolving variants of the same analyzer:
`src/server.py` (class `OptimizedMSGAnalyzer` plus its HTTP handler
`MSGHandler`, the paginated, TTL-cached variant), `src/msg_analyser2.py`
(class `MSGAnalyzer` plus its `MSGHandler`), and `src/msg_analyser.py`
(the Flask variant).  This file is a shallow embedding of the pieces of
those programs that the claims mention: the in-process state (cache map,
cache-time map, status map, comment map), the batch page loader, the
full-document loader, the annotation writers and the HTTP-handler
validation layers.

Modelling conventions:

* Python dicts become association lists `List (String × β)` with
  first-match lookup (`dictGet`), in-place-replace-or-append update
  (`dictSet`, faithful to Python dict assignment on unique keys) and
  predicate deletion (`invalidate`, the `for key in list(d): if p: del`
  loop).
* `time.time()` values are `Int` (seconds); the TTL comparison
  `now - stored < 300` is integer comparison exactly as in the source.
* The filesystem (`os.path.exists` + `glob.glob("*.msg")`) is a
  parameter `fs : String → Option (List Handle)`: `none` models a
  nonexistent process folder, `some hs` the raw `.msg` handles (file
  stem plus mtime) in glob order.
* `_create_sample_message_data` draws random subjects/senders/dates;
  the random draws are a parameter `sample` returning the drawn values
  (or `none` to model a raised exception, which the batch loop catches
  and skips).  Everything deterministic in the source (RE:/FW: subject
  mangling, attachment synthesis, status/comment merging, key strings)
  is computed here exactly as in the source.
* Python's builtin `hash` is an opaque parameter `pyHash : String → Int`.
* Python `list.sort(key=…, reverse=True)` is a stable descending sort,
  embedded as the left-fold insertion sort `sortDesc` below (later
  elements are inserted after equal keys, which is exactly stability).
-/

/-- First-match lookup in an association list (Python `d.get(k)` /
`k in d`). -/
def dictGet {β : Type} (d : List (String × β)) (k : String) : Option β :=
  match d with
  | [] => none
  | (a, v) :: es => if a = k then some v else dictGet es k

/-- Python dict assignment `d[k] = v`: replace the (unique) existing
binding in place, or append a new binding at the end. -/
def dictSet {β : Type} (d : List (String × β)) (k : String) (v : β) :
    List (String × β) :=
  match d with
  | [] => [(k, v)]
  | (a, w) :: es => if a = k then (k, v) :: es else (a, w) :: dictSet es k v

/-- The deletion loop `for key in list(d.keys()): if p(key): del d[key]`. -/
def invalidate {β : Type} (d : List (String × β)) (p : String → Bool) :
    List (String × β) :=
  d.filter (fun e => !(p e.1))

theorem dictGet_dictSet_self {β : Type} (d : List (String × β)) (k : String)
    (v : β) : dictGet (dictSet d k v) k = some v := by
  induction d with
  | nil => simp [dictSet, dictGet]
  | cons e es ih =>
    obtain ⟨a, w⟩ := e
    by_cases h : a = k
    · simp [dictSet, dictGet, h]
    · simp [dictSet, dictGet, h, ih]

theorem dictGet_dictSet_ne {β : Type} (d : List (String × β)) (k k' : String)
    (v : β) (h : k ≠ k') : dictGet (dictSet d k v) k' = dictGet d k' := by
  induction d with
  | nil => simp [dictSet, dictGet, h]
  | cons e es ih =>
    obtain ⟨a, w⟩ := e
    by_cases ha : a = k
    · subst ha
      simp [dictSet, dictGet, h]
    · simp [dictSet, dictGet, ha, ih]

theorem dictGet_invalidate {β : Type} (d : List (String × β))
    (p : String → Bool) (k : String) :
    dictGet (invalidate d p) k = if p k then none else dictGet d k := by
  induction d with
  | nil => simp [invalidate, dictGet]
  | cons e es ih =>
    obtain ⟨a, v⟩ := e
    simp only [invalidate, List.filter_cons] at ih ⊢
    by_cases hpa : p a
    · by_cases hak : a = k
      · subst hak
        simp only [hpa] at ih ⊢
        simpa using ih
      · simp only [hpa] at ih ⊢
        simp only [dictGet, hak, if_false]
        simpa using ih
    · by_cases hak : a = k
      · subst hak
        simp only [hpa] at ih ⊢
        simp [dictGet]
      · simp only [hpa] at ih ⊢
        simp only [Bool.not_false, if_true, dictGet, hak, if_false]
        simpa using ih

/-- `isPreOf l₁ l₂` decides whether `l₁` is an initial segment of `l₂`. -/
def isPreOf : List Char → List Char → Bool
  | [], _ => true
  | _ :: _, [] => false
  | a :: as, b :: bs => decide (a = b) && isPreOf as bs

/-- `hasSub sub l` decides whether `sub` occurs contiguously inside `l`. -/
def hasSub (sub : List Char) : List Char → Bool
  | [] => isPreOf sub []
  | c :: rest => isPreOf sub (c :: rest) || hasSub sub rest

/-- Python substring containment `sub in s`. -/
def strContainsB (s sub : String) : Bool :=
  hasSub sub.data s.data

theorem isPreOf_append_self : ∀ l m : List Char, isPreOf l (l ++ m) = true
  | [], _ => rfl
  | a :: as, m => by simp [isPreOf, isPreOf_append_self as m]

theorem hasSub_nil_left : ∀ l : List Char, hasSub [] l = true
  | [] => rfl
  | _ :: rest => by simp [hasSub, isPreOf]

theorem hasSub_append_self : ∀ l m : List Char, hasSub l (l ++ m) = true
  | [], m => by simpa using hasSub_nil_left m
  | a :: as, m => by
      have h := isPreOf_append_self (a :: as) m
      simp only [List.cons_append] at h
      simp [hasSub, h]

/-- A string contains every string it extends on the right. -/
theorem strContainsB_self_append (a b : String) :
    strContainsB (a ++ b) a = true := by
  unfold strContainsB
  rw [String.data_append]
  exact hasSub_append_self a.data b.data

theorem str_append_assoc (a b c : String) : a ++ b ++ c = a ++ (b ++ c) := by
  apply String.ext
  simp [String.data_append]

/-- First `n` characters of a string (Python `s[:n]` for `n ≥ 0`). -/
def strTake (s : String) (n : Nat) : String :=
  ⟨s.data.take n⟩

/-- Suffix of a character list after its last `'/'`. -/
def baseNameAux (cur : List Char) : List Char → List Char
  | [] => cur
  | c :: rest =>
    if c = '/' then baseNameAux [] rest else baseNameAux (cur ++ [c]) rest

/-- `os.path.basename` for `/`-separated paths. -/
def baseName (s : String) : String :=
  ⟨baseNameAux [] s.data⟩

/-- Lexicographic (code-point) strict comparison of character lists:
exactly Python's `<` on strings. -/
def charsLt : List Char → List Char → Bool
  | [], [] => false
  | [], _ :: _ => true
  | _ :: _, [] => false
  | a :: as, b :: bs =>
    decide (a < b) || (decide (a = b) && charsLt as bs)

/-- Python string `<`. -/
def strLtB (a b : String) : Bool :=
  charsLt a.data b.data

theorem charsLt_irrefl : ∀ l : List Char, charsLt l l = false
  | [] => rfl
  | a :: as => by simp [charsLt, lt_irrefl, charsLt_irrefl as]

theorem charsLt_asymm : ∀ as bs : List Char,
    charsLt as bs = true → charsLt bs as = false
  | [], [], h => by simp [charsLt] at h
  | [], _ :: _, _ => rfl
  | _ :: _, [], h => by simp [charsLt] at h
  | a :: as, b :: bs, h => by
      simp only [charsLt, Bool.or_eq_true, Bool.and_eq_true,
        decide_eq_true_eq] at h
      rcases h with hab | ⟨hab, hrest⟩
      · have h1 : decide (b < a) = false := by simp [lt_asymm hab]
        have h2 : decide (b = a) = false := by simp [ne_of_gt hab]
        simp [charsLt, h1, h2]
      · subst hab
        have hr := charsLt_asymm as bs hrest
        simp [charsLt, lt_irrefl, hr]

theorem charsLt_trans : ∀ as bs cs : List Char,
    charsLt as bs = true → charsLt bs cs = true → charsLt as cs = true
  | [], [], _, h1, _ => by simp [charsLt] at h1
  | [], _ :: _, [], _, h2 => by simp [charsLt] at h2
  | [], _ :: _, _ :: _, _, _ => rfl
  | _ :: _, [], _, h1, _ => by simp [charsLt] at h1
  | _ :: _, _ :: _, [], _, h2 => by simp [charsLt] at h2
  | a :: as, b :: bs, c :: cs, h1, h2 => by
      simp only [charsLt, Bool.or_eq_true, Bool.and_eq_true,
        decide_eq_true_eq] at h1 h2 ⊢
      rcases h1 with hab | ⟨hab, hr1⟩
      · rcases h2 with hbc | ⟨hbc, hr2⟩
        · exact Or.inl (lt_trans hab hbc)
        · exact Or.inl (hbc ▸ hab)
      · rcases h2 with hbc | ⟨hbc, hr2⟩
        · refine Or.inl ?_
          rw [hab]
          exact hbc
        · exact Or.inr ⟨hab.trans hbc, charsLt_trans as bs cs hr1 hr2⟩

/-- Replace every (non-overlapping, left-to-right) occurrence of the
pattern `p :: ps` by `rep`, as Python `str.replace` does for a nonempty
pattern.  The `fuel` argument (always called with the input length,
which bounds the number of steps since the pattern is nonempty) makes
the recursion structural. -/
def replaceAllAux (p : Char) (ps rep : List Char) : Nat → List Char → List Char
  | 0, l => l
  | _ + 1, [] => []
  | fuel + 1, c :: rest =>
    if isPreOf (p :: ps) (c :: rest) then
      rep ++ replaceAllAux p ps rep fuel (rest.drop ps.length)
    else
      c :: replaceAllAux p ps rep fuel rest

/-- Python `s.replace(pat, rep)`.  Every call site in this file uses a
nonempty pattern (`process_id + "_"`); the empty-pattern branch is never
exercised. -/
def strReplaceAll (s pat rep : String) : String :=
  match pat.data with
  | [] => s
  | p :: ps => ⟨replaceAllAux p ps rep.data s.data.length s.data⟩

/-- Stable descending insertion: the new element goes after every
element whose key is not strictly below it (so equal keys keep their
original relative order). -/
def insertDesc {α : Type} (lt : α → α → Bool) (m : α) : List α → List α
  | [] => [m]
  | x :: xs => if lt x m then m :: x :: xs else x :: insertDesc lt m xs

/-- Python `list.sort(key=…, reverse=True)`: a stable descending sort. -/
def sortDesc {α : Type} (lt : α → α → Bool) (l : List α) : List α :=
  l.foldl (fun acc m => insertDesc lt m acc) []

theorem length_insertDesc {α : Type} (lt : α → α → Bool) (m : α)
    (l : List α) : (insertDesc lt m l).length = l.length + 1 := by
  induction l with
  | nil => rfl
  | cons x xs ih =>
    by_cases h : lt x m
    · simp [insertDesc, h]
    · simp [insertDesc, h, ih]

theorem length_sortDesc_aux {α : Type} (lt : α → α → Bool) :
    ∀ (l acc : List α),
      (l.foldl (fun acc m => insertDesc lt m acc) acc).length
        = acc.length + l.length
  | [], acc => by simp
  | x :: xs, acc => by
      simp only [List.foldl_cons]
      rw [length_sortDesc_aux lt xs]
      rw [length_insertDesc]
      simp only [List.length_cons]
      omega

theorem length_sortDesc {α : Type} (lt : α → α → Bool) (l : List α) :
    (sortDesc lt l).length = l.length := by
  unfold sortDesc
  rw [length_sortDesc_aux]
  simp

theorem mem_insertDesc {α : Type} (lt : α → α → Bool) (m a : α)
    (l : List α) : a ∈ insertDesc lt m l ↔ a = m ∨ a ∈ l := by
  induction l with
  | nil => simp [insertDesc]
  | cons x xs ih =>
    by_cases h : lt x m
    · simp [insertDesc, h]
    · simp [insertDesc, h, ih]
      tauto

theorem mem_sortDesc_aux {α : Type} (lt : α → α → Bool) :
    ∀ (l acc : List α) (a : α),
      a ∈ l.foldl (fun acc m => insertDesc lt m acc) acc ↔ a ∈ acc ∨ a ∈ l
  | [], acc, a => by simp
  | x :: xs, acc, a => by
      simp only [List.foldl_cons]
      rw [mem_sortDesc_aux lt xs]
      rw [mem_insertDesc]
      simp
      tauto

theorem mem_sortDesc {α : Type} (lt : α → α → Bool) (l : List α) (a : α) :
    a ∈ sortDesc lt l ↔ a ∈ l := by
  unfold sortDesc
  rw [mem_sortDesc_aux]
  simp

theorem pairwise_insertDesc {α : Type} (lt : α → α → Bool)
    (hA : ∀ x y, lt x y = true → lt y x = false)
    (hT : ∀ x y z, lt x y = true → lt y z = true → lt x z = true)
    (m : α) (l : List α)
    (hl : l.Pairwise (fun a b => lt a b = false)) :
    (insertDesc lt m l).Pairwise (fun a b => lt a b = false) := by
  induction l with
  | nil => simp [insertDesc]
  | cons x xs ih =>
    rw [List.pairwise_cons] at hl
    obtain ⟨hx, hxs⟩ := hl
    by_cases h : lt x m = true
    · rw [show insertDesc lt m (x :: xs) = m :: x :: xs from by
        simp [insertDesc, h]]
      rw [List.pairwise_cons]
      constructor
      · intro z hz
        rcases List.mem_cons.mp hz with hzx | hzxs
        · rw [hzx]
          exact hA x m h
        · by_contra hmz
          have hmz' : lt m z = true := by
            revert hmz
            cases lt m z <;> simp
          have hxz := hT x m z h hmz'
          rw [hx z hzxs] at hxz
          exact Bool.false_ne_true hxz
      · rw [List.pairwise_cons]
        exact ⟨hx, hxs⟩
    · rw [show insertDesc lt m (x :: xs) = x :: insertDesc lt m xs from by
        simp [insertDesc, h]]
      rw [List.pairwise_cons]
      constructor
      · intro z hz
        rcases (mem_insertDesc lt m z xs).mp hz with hzm | hzxs
        · subst hzm
          revert h
          cases lt x z <;> simp
        · exact hx z hzxs
      · exact ih hxs

theorem pairwise_sortDesc_aux {α : Type} (lt : α → α → Bool)
    (hA : ∀ x y, lt x y = true → lt y x = false)
    (hT : ∀ x y z, lt x y = true → lt y z = true → lt x z = true) :
    ∀ (l acc : List α),
      acc.Pairwise (fun a b => lt a b = false) →
      (l.foldl (fun acc m => insertDesc lt m acc) acc).Pairwise
        (fun a b => lt a b = false)
  | [], acc, hacc => hacc
  | x :: xs, acc, hacc => by
      simp only [List.foldl_cons]
      exact pairwise_sortDesc_aux lt hA hT xs _
        (pairwise_insertDesc lt hA hT x acc hacc)

theorem pairwise_sortDesc {α : Type} (lt : α → α → Bool)
    (hA : ∀ x y, lt x y = true → lt y x = false)
    (hT : ∀ x y z, lt x y = true → lt y z = true → lt x z = true)
    (l : List α) :
    (sortDesc lt l).Pairwise (fun a b => lt a b = false) :=
  pairwise_sortDesc_aux lt hA hT l [] (List.Pairwise.nil)

theorem length_filterMap_add_countP {α β : Type} (f : α → Option β)
    (l : List α) :
    (l.filterMap f).length + l.countP (fun a => (f a).isNone) = l.length := by
  induction l with
  | nil => simp
  | cons a as ih =>
    cases hfa : f a with
    | none =>
      rw [List.filterMap_cons_none hfa, List.countP_cons]
      simp [hfa]
      omega
    | some b =>
      rw [List.filterMap_cons_some hfa, List.countP_cons]
      simp [hfa]
      omega

/-! ## Data model

Shapes of the values the analyzer builds: a decoded message dict, a
paginated batch result, raw `.msg` file handles, and the sum of the two
value shapes the single `_cache` dict holds. -/

/-- One comment dict (arbitrary caller-supplied string fields). -/
abbrev CommentData := List (String × String)

/-- One attachment descriptor (`name` / `url` / `type` keys). -/
structure AttachmentData where
  name : String
  url : String
  type : String
deriving DecidableEq

/-- The message dict built by `server.py`'s
`_create_sample_message_data` (fields `sender` and
`recipients` model the `"from"` and `"to"` keys, which are reserved
tokens in Lean). -/
structure Msg where
  id : String
  subject : String
  sender : String
  recipients : String
  date : String
  body : String
  body_preview : String
  body_type : String
  status : String
  threadId : String
  filename : String
  attachments : List AttachmentData
  containsThread : Bool
  comments : List CommentData
  has_attachments : Bool
  needs_full_parse : Bool
deriving DecidableEq

/-- The dict returned by `_load_messages_batch`. -/
structure PageResult where
  messages : List Msg
  total_count : Nat
  has_more : Bool
  offset : Nat
  limit : Nat
deriving DecidableEq

/-- A raw `.msg` file handle as the collection index sees it: the file
stem (filename without the trailing `.msg`, as `os.path.splitext`
yields for glob hits of `*.msg`) and its modification time. -/
structure Handle where
  stem : String
  mtime : Int
deriving DecidableEq

/-- The values `random.choice` / `random.randint` draw inside one
`_create_sample_message_data` call: the base subject, the sender, the
generated ISO date, the body, and the (independently drawn) preview
body. -/
structure SampleDraw where
  subject : String
  sender : String
  date : String
  body : String
  preview : String
deriving DecidableEq

/-- The decode/randomness oracle: arguments are `msg_file`,
`process_id`, `message_id`, `index`, exactly the arguments of
`_create_sample_message_data`; `none` models the call raising (the
batch loop catches that per item). -/
abbrev Sampler := String → String → String → Int → Option SampleDraw

/-- The collection index / filesystem: `none` models
`not os.path.exists(process_path)`, `some hs` the glob result. -/
abbrev FS := String → Option (List Handle)

/-- The two value shapes stored in the single `_cache` dict of
`OptimizedMSGAnalyzer`. -/
inductive CacheValue where
  | page : PageResult → CacheValue
  | full : Msg → CacheValue
deriving DecidableEq

/-- The mutable state of one `OptimizedMSGAnalyzer` instance
(`server.py`): `_cache`, `_cache_time`, `message_status`,
`message_comments`. -/
structure St where
  cache : List (String × CacheValue)
  cache_time : List (String × Int)
  message_status : List (String × String)
  message_comments : List (String × List CommentData)
deriving DecidableEq

/-- The mutable state of one `MSGAnalyzer` instance
(`msg_analyser2.py`); its `_cache` holds plain message lists keyed by
`messages_{process_id}`. -/
structure St2 where
  cache : List (String × List Msg)
  cache_time : List (String × Int)
  message_status : List (String × String)
  message_comments : List (String × List CommentData)
deriving DecidableEq

/-- An HTTP-handler outcome: `send_json_response` of a success message,
or `send_error code msg`. -/
inductive Resp where
  | ok : String → Resp
  | err : Nat → String → Resp
deriving DecidableEq

namespace Server

/-- `self.cache_timeout = 300`. -/
def cache_timeout : Int := 300

/-- The cache key `f"messages_{process_id}_{limit}_{offset}"`. -/
def pageKey (process_id : String) (limit offset : Nat) : String :=
  "messages_" ++ process_id ++ "_" ++ toString limit ++ "_" ++ toString offset

/-- The predicate of the invalidation loops in `update_message_status`
and `add_comment_to_message`:
`f"messages_{process_id}" in key or f"full_{message_id}" in key`. -/
def invalPred (process_id message_id key : String) : Bool :=
  strContainsB key ("messages_" ++ process_id) ||
    strContainsB key ("full_" ++ message_id)

/-- The glob path `os.path.join(base_folder, process_id, stem + ".msg")`
(base folder is the constructor default `"msg_files"`). -/
def msgFilePath (process_id : String) (h : Handle) : String :=
  "msg_files/" ++ process_id ++ "/" ++ h.stem ++ ".msg"

/-- `_create_sample_message_data(msg_file, process_id, message_id,
index)`.  The random draws come from `sample`; the RE:/FW: subject
mangling, thread id, attachment synthesis and status/comment merging
are computed as in the source.  `none` models the call raising. -/
def create_sample_message_data (pyHash : String → Int) (sample : Sampler)
    (st : St) (msg_file process_id message_id : String) (index : Int) :
    Option Msg :=
  match sample msg_file process_id message_id index with
  | none => none
  | some draw =>
    let subject :=
      if index % 3 = 0 then "RE: " ++ draw.subject
      else if index % 5 = 0 then "FW: " ++ draw.subject
      else draw.subject
    some
      { id := message_id
        subject := subject
        sender := draw.sender
        recipients := "team@company.com, managers@company.com"
        date := draw.date
        body := draw.body
        body_preview := strTake draw.preview 100 ++ "..."
        body_type := "text"
        status := (dictGet st.message_status message_id).getD "untagged"
        threadId := "thread_" ++ toString (pyHash subject % 1000)
        filename := baseName msg_file
        attachments :=
          if index % 4 = 0 then
            [{ name := "document.pdf"
               url := "/api/attachment/" ++ message_id ++ "/0"
               type := "PDF" }]
          else []
        containsThread := decide (index % 3 = 0)
        comments := (dictGet st.message_comments message_id).getD []
        has_attachments := decide (index % 4 = 0)
        needs_full_parse := true }

/-- The strict comparison `os.path.getmtime` keys are sorted by
(descending, via `sortDesc`). -/
def mtimeLt (a b : Handle) : Bool := decide (a.mtime < b.mtime)

/-- The strict comparison on the `'date'` keys used by
`messages.sort(key=lambda x: x.get('date', ''), reverse=True)` (every
built message has a `date` field, so the `''` default never fires). -/
def dateLt (a b : Msg) : Bool := strLtB a.date b.date

/-- The per-item decode step of the batch loop: index `i` and handle
`h` become `_create_sample_message_data(msg_file, process_id,
f"{process_id}_{stem}", i)`; `none` is the caught-and-skipped per-item
exception. -/
def decodeStep (pyHash : String → Int) (sample : Sampler) (st : St)
    (process_id : String) (p : Nat × Handle) : Option Msg :=
  create_sample_message_data pyHash sample st (msgFilePath process_id p.2)
    process_id (process_id ++ "_" ++ p.2.stem) (Int.ofNat p.1)

/-- `_load_messages_batch(process_id, limit, offset)`. -/
def load_messages_batch (pyHash : String → Int) (sample : Sampler)
    (st : St) (fs : FS) (process_id : String) (limit offset : Nat) :
    PageResult :=
  match fs process_id with
  | none =>
    { messages := []
      total_count := 0
      has_more := false
      offset := offset
      limit := limit }
  | some msg_files0 =>
    let total_count := msg_files0.length
    let msg_files := sortDesc mtimeLt msg_files0
    let batch_files := (msg_files.drop offset).take limit
    let messages := batch_files.enum.filterMap
      (decodeStep pyHash sample st process_id)
    let messages := sortDesc dateLt messages
    { messages := messages
      total_count := total_count
      has_more := decide (offset + limit < total_count)
      offset := offset
      limit := limit }

/-- The freshness test of the cache guard in
`get_messages_for_process_optimized`:
`cache_key in self._cache and current_time -
self._cache_time.get(cache_key, 0) < self.cache_timeout`. -/
def cacheFresh (st : St) (now : Int) (key : String) : Bool :=
  match dictGet st.cache key with
  | some _ => decide (now - ((dictGet st.cache_time key).getD 0) < cache_timeout)
  | none => false

/-- `get_messages_for_process_optimized(process_id, limit, offset)`
called at time `now`; returns the cached or freshly stored value and
the successor state. -/
def get_messages_for_process_optimized (pyHash : String → Int)
    (sample : Sampler) (st : St) (fs : FS) (now : Int)
    (process_id : String) (limit offset : Nat) : CacheValue × St :=
  let cache_key := pageKey process_id limit offset
  let fresh :=
    let p := load_messages_batch pyHash sample st fs process_id limit offset
    (CacheValue.page p,
      { st with
        cache := dictSet st.cache cache_key (CacheValue.page p)
        cache_time := dictSet st.cache_time cache_key now })
  match dictGet st.cache cache_key with
  | some v =>
    if now - ((dictGet st.cache_time cache_key).getD 0) < cache_timeout then
      (v, st)
    else fresh
  | none => fresh

/-- The in-place enhancement of the fabricated full message in
`get_message_full_content` (recipients, long body, attachment list). -/
def enhanceFullMessage (m : Msg) : Msg :=
  { m with
    recipients := "john.doe@company.com, jane.smith@company.com, mike.johnson@company.com, sarah.wilson@company.com"
    body := "Dear Team,\n\nThis is the complete message content for "
      ++ m.subject
      ++ ".\n\nI wanted to provide you with a comprehensive update on the current project status. We have made significant progress in the following areas:\n\n1. Development milestones achieved\n2. Client feedback incorporated\n3. Next steps identified\n\nPlease review the attached documents and let me know if you have any questions or concerns. We should schedule a follow-up meeting to discuss the implementation plan.\n\nBest regards,\nTeam Lead\n\nOriginal Message:\nThis would be the actual content extracted from the .msg file in a production environment."
    body_type := "text"
    attachments :=
      [{ name := "project_document.pdf"
         url := "/api/attachment/" ++ m.id ++ "/0"
         type := "PDF" },
       { name := "meeting_notes.docx"
         url := "/api/attachment/" ++ m.id ++ "/1"
         type := "Word" },
       { name := "data_analysis.xlsx"
         url := "/api/attachment/" ++ m.id ++ "/2"
         type := "Excel" }] }

/-- `get_message_full_content(process_id, message_id)` at time `now`.
A present `full_{message_id}` cache entry is returned with **no**
freshness test; otherwise a sample message is fabricated, enhanced and
cached.  `none` models the fabrication raising (surfaced by the
handler as a 500). -/
def get_message_full_content (pyHash : String → Int) (sample : Sampler)
    (st : St) (now : Int) (process_id message_id : String) :
    Option (CacheValue × St) :=
  let cache_key := "full_" ++ message_id
  match dictGet st.cache cache_key with
  | some v => some (v, st)
  | none =>
    match create_sample_message_data pyHash sample st
        (strReplaceAll message_id (process_id ++ "_") "" ++ ".msg")
        process_id message_id (pyHash message_id % 10) with
    | none => none
    | some m0 =>
      let full := enhanceFullMessage m0
      some (CacheValue.full full,
        { st with
          cache := dictSet st.cache cache_key (CacheValue.full full)
          cache_time := dictSet st.cache_time cache_key now })

/-- `update_message_status(process_id, message_id, status)`: records
the status, then deletes every `_cache` entry whose key contains
`messages_{process_id}` or `full_{message_id}` as a substring
(`_cache_time` is left untouched); returns `True`. -/
def update_message_status (st : St)
    (process_id message_id status : String) : Bool × St :=
  (true,
    { st with
      message_status := dictSet st.message_status message_id status
      cache := invalidate st.cache (invalPred process_id message_id) })

/-- `add_comment_to_message(process_id, message_id, comment_data)`:
stamps `comment_data["date"]`, appends to the (lazily created) comment
list, runs the same invalidation loop, returns `True`.  `nowStr` is
the `time.strftime` stamp. -/
def add_comment_to_message (st : St) (process_id message_id : String)
    (comment_data : CommentData) (nowStr : String) : Bool × St :=
  (true,
    { st with
      message_comments :=
        dictSet st.message_comments message_id
          (((dictGet st.message_comments message_id).getD [])
            ++ [dictSet comment_data "date" nowStr])
      cache := invalidate st.cache (invalPred process_id message_id) })

/-- `clear_cache()`. -/
def clear_cache (st : St) : St :=
  { st with cache := [], cache_time := [] }

/-- `MSGHandler.handle_update_status`: parse JSON (`none` = parse
failure, surfaced by the surrounding `except` as a 500), reject a
status outside the three-value enum with a 400, otherwise delegate. -/
def handle_update_status (st : St) (process_id message_id : String)
    (data : Option (List (String × String))) : Resp × St :=
  match data with
  | none => (Resp.err 500 "Error updating status", st)
  | some d =>
    match dictGet d "status" with
    | none => (Resp.err 400 "Invalid status", st)
    | some status =>
      if status = "keep" ∨ status = "review" ∨ status = "untagged" then
        let r := update_message_status st process_id message_id status
        if r.1 then (Resp.ok "Status updated successfully", r.2)
        else (Resp.err 500 "Failed to update status", r.2)
      else (Resp.err 400 "Invalid status", st)

/-- `MSGHandler.handle_add_comment` of `server.py`: parse JSON and
delegate straight to `add_comment_to_message` — **no** field
validation happens here. -/
def handle_add_comment (st : St) (process_id message_id : String)
    (data : Option (List (String × String))) (nowStr : String) :
    Resp × St :=
  match data with
  | none => (Resp.err 500 "Error adding comment", st)
  | some d =>
    let r := add_comment_to_message st process_id message_id d nowStr
    if r.1 then (Resp.ok "Comment added successfully", r.2)
    else (Resp.err 500 "Failed to add comment", r.2)

end Server

namespace Analyser2

/-- `msg_analyser2.MSGAnalyzer.update_message_status`: record the
status, delete the single cache entry `messages_{process_id}` if
present, return `True`. -/
def update_message_status (st : St2)
    (process_id message_id status : String) : Bool × St2 :=
  (true,
    { st with
      message_status := dictSet st.message_status message_id status
      cache := invalidate st.cache (fun key =>
        decide (key = "messages_" ++ process_id)) })

/-- `msg_analyser2.MSGAnalyzer.add_comment_to_message`: stamp
`comment_data["date"]` with `datetime.now().isoformat()` (`nowStr`),
append to the lazily created comment list, delete the single cache
entry `messages_{process_id}`, return `True`. -/
def add_comment_to_message (st : St2) (process_id message_id : String)
    (comment_data : CommentData) (nowStr : String) : Bool × St2 :=
  (true,
    { st with
      message_comments :=
        dictSet st.message_comments message_id
          (((dictGet st.message_comments message_id).getD [])
            ++ [dictSet comment_data "date" nowStr])
      cache := invalidate st.cache (fun key =>
        decide (key = "messages_" ++ process_id)) })

/-- `msg_analyser2.MSGHandler.handle_add_comment`: invalid JSON → 400;
a body without the required grouping-key field `"key"` → 400 before
any mutation; otherwise delegate to `add_comment_to_message`. -/
def handle_add_comment (st : St2) (process_id message_id : String)
    (data : Option (List (String × String))) (nowStr : String) :
    Resp × St2 :=
  match data with
  | none => (Resp.err 400 "Invalid JSON", st)
  | some d =>
    if (dictGet d "key").isNone then
      (Resp.err 400 "Missing required field: key", st)
    else
      let r := add_comment_to_message st process_id message_id d nowStr
      if r.1 then (Resp.ok "Comment added successfully", r.2)
      else (Resp.err 500 "Failed to add comment", r.2)

end Analyser2

namespace Analyser1

/-- The `add_comment` Flask route of `msg_analyser.py`: requires the
fields `key`, `labels`, `text` (in that order) and rejects a body
missing one with a 400 before calling the (stateless, always-`True`)
`add_comment_to_message` stub; `none` models `request.get_json()`
yielding no dict (the `in` test then raises, surfaced as a 500). -/
def add_comment (data : Option (List (String × String))) : Resp :=
  match data with
  | none => Resp.err 500 "Internal server error"
  | some d =>
    if (dictGet d "key").isNone then Resp.err 400 "Missing field: key"
    else if (dictGet d "labels").isNone then Resp.err 400 "Missing field: labels"
    else if (dictGet d "text").isNone then Resp.err 400 "Missing field: text"
    else Resp.ok "Comment added successfully"

end Analyser1

/-! ## Shared auxiliary facts about the batch loader -/

/-- The number of raw `.msg` handles a collection has (`0` when the
process path does not exist), i.e. the `len(msg_files)` of
`_load_messages_batch` and the claims' `totalCount`. -/
def totalHandles (fs : FS) (process_id : String) : Nat :=
  match fs process_id with
  | none => 0
  | some hs => hs.length

theorem dateLt_asymm : ∀ a b : Msg,
    Server.dateLt a b = true → Server.dateLt b a = false := by
  intro a b h
  exact charsLt_asymm _ _ h

theorem dateLt_trans : ∀ a b c : Msg,
    Server.dateLt a b = true → Server.dateLt b c = true →
    Server.dateLt a c = true := by
  intro a b c h1 h2
  exact charsLt_trans _ _ _ h1 h2

/-- The messages of every batch result are weakly descending in their
`date` keys. -/
theorem load_messages_batch_pairwise (pyHash : String → Int)
    (sample : Sampler) (st : St) (fs : FS) (process_id : String)
    (limit offset : Nat) :
    (Server.load_messages_batch pyHash sample st fs process_id limit
      offset).messages.Pairwise (fun a b => Server.dateLt a b = false) := by
  cases hfs : fs process_id with
  | none => simp [Server.load_messages_batch, hfs]
  | some hs =>
    simp only [Server.load_messages_batch, hfs]
    exact pairwise_sortDesc Server.dateLt dateLt_asymm dateLt_trans _

/-! ## Claim C1 -/

/-- C1: for every valid `(collectionId, limit, offset)` (modelled by
`limit offset : Nat`), the page computed by `_load_messages_batch` has
`has_more = (offset + limit < total_count)` where `total_count` is the
raw `.msg` handle count of the collection (`0` when the process path
does not exist). -/
theorem c1_has_more_formula (pyHash : String → Int) (sample : Sampler)
    (st : St) (fs : FS) (process_id : String) (limit offset : Nat) :
    (Server.load_messages_batch pyHash sample st fs process_id limit
        offset).has_more
      = decide (offset + limit < totalHandles fs process_id)
    ∧ (Server.load_messages_batch pyHash sample st fs process_id limit
        offset).total_count
      = totalHandles fs process_id := by
  cases hfs : fs process_id with
  | none => simp [Server.load_messages_batch, totalHandles, hfs]
  | some hs => simp [Server.load_messages_batch, totalHandles, hfs]

/-! ## Claim C5 -/

/-- C5: if exactly one of the `N` items of the requested batch slice
fails to decode, the page still succeeds with exactly `N - 1`
documents, and `total_count` still counts all raw handles of the
collection. -/
theorem c5_partial_failure (pyHash : String → Int) (sample : Sampler)
    (st : St) (fs : FS) (process_id : String) (limit offset : Nat)
    (hs : List Handle)
    (hfs : fs process_id = some hs)
    (hone : (((sortDesc Server.mtimeLt hs).drop offset).take
        limit).enum.countP
        (fun p => (Server.decodeStep pyHash sample st process_id p).isNone)
      = 1) :
    (Server.load_messages_batch pyHash sample st fs process_id limit
        offset).messages.length
      = (((sortDesc Server.mtimeLt hs).drop offset).take limit).length - 1
    ∧ (Server.load_messages_batch pyHash sample st fs process_id limit
        offset).total_count = hs.length := by
  simp only [Server.load_messages_batch, hfs]
  constructor
  · rw [length_sortDesc]
    have hlen := length_filterMap_add_countP
      (Server.decodeStep pyHash sample st process_id)
      (((sortDesc Server.mtimeLt hs).drop offset).take limit).enum
    rw [hone] at hlen
    have hel : (((sortDesc Server.mtimeLt hs).drop offset).take
        limit).enum.length
        = (((sortDesc Server.mtimeLt hs).drop offset).take limit).length :=
      List.enum_length
    omega
  · trivial

/-! ## Concrete instances used by witnesses and counterexamples -/

/-- A concrete stand-in for Python's opaque string `hash`. -/
def pyHash0 : String → Int := fun _ => 0

/-- A freshly constructed `OptimizedMSGAnalyzer` state. -/
def st0 : St :=
  { cache := [], cache_time := [], message_status := [], message_comments := [] }

/-- A collection `"P"` with two raw handles, newest (`"b"`) last in
glob order. -/
def fsBA : FS := fun p => if p = "P" then some [⟨"a", 5⟩, ⟨"b", 9⟩] else none

/-- Draws whose generated date depends on the message id: `"P_a"` gets
the later date. -/
def sampleTwoDates : Sampler := fun _ _ mid _ =>
  some { subject := "s", sender := "e",
         date := if mid = "P_a" then "2025-01-02" else "2025-01-01",
         body := "b", preview := "p" }

/-- Draws returning one fixed date for every item. -/
def sampleSameDate : Sampler := fun _ _ _ _ =>
  some { subject := "s", sender := "e", date := "2025-01-01",
         body := "b", preview := "p" }

/-- Draws that fail (raise) exactly for message id `"P_a"`. -/
def sampleFailA : Sampler := fun _ _ mid _ =>
  if mid = "P_a" then none
  else some { subject := "s", sender := "e", date := "2025-01-01",
              body := "b", preview := "p" }

/-- C5 witness instance: collection `"P"`, two handles, one failing
decode; the theorem applies and the page has `2 - 1` documents with
`total_count = 2`. -/
theorem c5_partial_failure_witness :
    fsBA "P" = some [⟨"a", 5⟩, ⟨"b", 9⟩]
    ∧ (((sortDesc Server.mtimeLt [⟨"a", 5⟩, ⟨"b", 9⟩]).drop 0).take
        2).enum.countP
        (fun p => (Server.decodeStep pyHash0 sampleFailA st0 "P" p).isNone)
      = 1
    ∧ (Server.load_messages_batch pyHash0 sampleFailA st0 fsBA "P" 2
        0).messages.length
      = (((sortDesc Server.mtimeLt [⟨"a", 5⟩, ⟨"b", 9⟩]).drop 0).take
          2).length - 1
    ∧ (Server.load_messages_batch pyHash0 sampleFailA st0 fsBA "P" 2
        0).total_count = 2 :=
  ⟨by decide, by decide,
    (c5_partial_failure pyHash0 sampleFailA st0 fsBA "P" 2 0
      [⟨"a", 5⟩, ⟨"b", 9⟩] (by decide) (by decide)).1,
    (c5_partial_failure pyHash0 sampleFailA st0 fsBA "P" 2 0
      [⟨"a", 5⟩, ⟨"b", 9⟩] (by decide) (by decide)).2⟩

/-! ## Claim C4 -/

/-- C4 (amended): within one `PageResult`, documents are sorted weakly
descending by their `date` key — if `A.date > B.date` then `A`'s
position strictly precedes `B`'s.  (The claimed identifier-ascending
tie-break does **not** hold; see the counterexample.) -/
theorem c4_timestamp_descending (pyHash : String → Int) (sample : Sampler)
    (st : St) (fs : FS) (process_id : String) (limit offset : Nat)
    (iA iB : Nat) (A B : Msg)
    (hA : (Server.load_messages_batch pyHash sample st fs process_id limit
        offset).messages[iA]? = some A)
    (hB : (Server.load_messages_batch pyHash sample st fs process_id limit
        offset).messages[iB]? = some B)
    (hlt : strLtB B.date A.date = true) : iA < iB := by
  have hp := load_messages_batch_pairwise pyHash sample st fs process_id
    limit offset
  rw [List.pairwise_iff_get] at hp
  obtain ⟨hiA, hAeq⟩ := List.getElem?_eq_some.mp hA
  obtain ⟨hiB, hBeq⟩ := List.getElem?_eq_some.mp hB
  rcases Nat.lt_trichotomy iA iB with h | h | h
  · exact h
  · exfalso
    subst h
    have hAB : A = B := by rw [← hAeq, ← hBeq]
    rw [hAB] at hlt
    rw [strLtB, charsLt_irrefl] at hlt
    exact Bool.false_ne_true hlt
  · exfalso
    have hr := hp ⟨iB, hiB⟩ ⟨iA, hiA⟩ (Fin.mk_lt_mk.mpr h)
    rw [List.get_eq_getElem, List.get_eq_getElem] at hr
    rw [hAeq, hBeq] at hr
    rw [Server.dateLt] at hr
    rw [hr] at hlt
    exact Bool.false_ne_true hlt

/-- The first (latest-dated) document of the C4 witness page. -/
def c4DocA : Msg :=
  { id := "P_a", subject := "s", sender := "e",
    recipients := "team@company.com, managers@company.com",
    date := "2025-01-02", body := "b", body_preview := "p...",
    body_type := "text", status := "untagged", threadId := "thread_0",
    filename := "a.msg", attachments := [], containsThread := false,
    comments := [], has_attachments := false, needs_full_parse := true }

/-- The second document of the C4 witness page (index 0 of the batch,
so it gets the `RE:` subject and the synthetic attachment). -/
def c4DocB : Msg :=
  { id := "P_b", subject := "RE: s", sender := "e",
    recipients := "team@company.com, managers@company.com",
    date := "2025-01-01", body := "b", body_preview := "p...",
    body_type := "text", status := "untagged", threadId := "thread_0",
    filename := "b.msg",
    attachments := [{ name := "document.pdf",
                      url := "/api/attachment/P_b/0", type := "PDF" }],
    containsThread := true, comments := [], has_attachments := true,
    needs_full_parse := true }

/-- C4 witness instance: a two-document page with distinct dates; the
later-dated document precedes. -/
theorem c4_timestamp_descending_witness :
    (Server.load_messages_batch pyHash0 sampleTwoDates st0 fsBA "P" 2
        0).messages[0]? = some c4DocA
    ∧ (Server.load_messages_batch pyHash0 sampleTwoDates st0 fsBA "P" 2
        0).messages[1]? = some c4DocB
    ∧ strLtB c4DocB.date c4DocA.date = true
    ∧ (0 : Nat) < 1 :=
  ⟨by decide, by decide, by decide,
    c4_timestamp_descending pyHash0 sampleTwoDates st0 fsBA "P" 2 0 0 1
      c4DocA c4DocB (by decide) (by decide) (by decide)⟩

/-- C4 counterexample: two documents with **equal** timestamps keep
their pre-sort (mtime-descending) order, so the one with the **higher**
identifier (`"P_b"`) precedes the lower one (`"P_a"`) — the claimed
identifier-ascending tie-break is violated. -/
theorem c4_tiebreak_counterexample :
    ((Server.load_messages_batch pyHash0 sampleSameDate st0 fsBA "P" 2
        0).messages.map Msg.id) = ["P_b", "P_a"]
    ∧ ((Server.load_messages_batch pyHash0 sampleSameDate st0 fsBA "P" 2
        0).messages.map Msg.date) = ["2025-01-01", "2025-01-01"]
    ∧ strLtB "P_a" "P_b" = true := by
  refine ⟨by decide, by decide, by decide⟩

/-! ## Cache-path lemmas for `get_messages_for_process_optimized` -/

/-- The page cache key always matches the invalidation predicate of an
annotation write for its own collection (it starts with
`messages_{process_id}`). -/
theorem invalPred_pageKey (process_id message_id : String)
    (limit offset : Nat) :
    Server.invalPred process_id message_id
      (Server.pageKey process_id limit offset) = true := by
  unfold Server.invalPred Server.pageKey
  have h : "messages_" ++ process_id ++ "_" ++ toString limit ++ "_"
        ++ toString offset
      = ("messages_" ++ process_id)
        ++ ("_" ++ toString limit ++ "_" ++ toString offset) := by
    apply String.ext
    simp [String.data_append]
  rw [h, strContainsB_self_append]
  rfl

/-- A cache miss computes the batch and stores it under the page key
with the current time. -/
theorem get_messages_miss (pyHash : String → Int) (sample : Sampler)
    (st : St) (fs : FS) (now : Int) (process_id : String)
    (limit offset : Nat)
    (hmiss : dictGet st.cache (Server.pageKey process_id limit offset)
      = none) :
    Server.get_messages_for_process_optimized pyHash sample st fs now
        process_id limit offset
      = (CacheValue.page (Server.load_messages_batch pyHash sample st fs
            process_id limit offset),
         { st with
           cache := dictSet st.cache (Server.pageKey process_id limit offset)
             (CacheValue.page (Server.load_messages_batch pyHash sample st
                fs process_id limit offset))
           cache_time := dictSet st.cache_time
             (Server.pageKey process_id limit offset) now }) := by
  unfold Server.get_messages_for_process_optimized
  simp only [hmiss]

/-- A live (non-expired) cache entry is returned unchanged. -/
theorem get_messages_hit (pyHash : String → Int) (sample : Sampler)
    (st : St) (fs : FS) (now : Int) (process_id : String)
    (limit offset : Nat) (v : CacheValue)
    (hv : dictGet st.cache (Server.pageKey process_id limit offset)
      = some v)
    (ht : now - ((dictGet st.cache_time
        (Server.pageKey process_id limit offset)).getD 0)
      < Server.cache_timeout) :
    Server.get_messages_for_process_optimized pyHash sample st fs now
        process_id limit offset = (v, st) := by
  unfold Server.get_messages_for_process_optimized
  simp only [hv]
  rw [if_pos ht]

/-- When the freshness guard fails (absent entry or expired entry), the
call recomputes and stores, exactly as on a miss. -/
theorem get_messages_not_fresh (pyHash : String → Int) (sample : Sampler)
    (st : St) (fs : FS) (now : Int) (process_id : String)
    (limit offset : Nat)
    (hmiss : Server.cacheFresh st now (Server.pageKey process_id limit
      offset) = false) :
    Server.get_messages_for_process_optimized pyHash sample st fs now
        process_id limit offset
      = (CacheValue.page (Server.load_messages_batch pyHash sample st fs
            process_id limit offset),
         { st with
           cache := dictSet st.cache (Server.pageKey process_id limit offset)
             (CacheValue.page (Server.load_messages_batch pyHash sample st
                fs process_id limit offset))
           cache_time := dictSet st.cache_time
             (Server.pageKey process_id limit offset) now }) := by
  unfold Server.cacheFresh at hmiss
  cases hv : dictGet st.cache (Server.pageKey process_id limit offset) with
  | none =>
    exact get_messages_miss pyHash sample st fs now process_id limit offset hv
  | some v =>
    rw [hv] at hmiss
    have hnot : ¬(now - ((dictGet st.cache_time
        (Server.pageKey process_id limit offset)).getD 0)
        < Server.cache_timeout) := of_decide_eq_false hmiss
    unfold Server.get_messages_for_process_optimized
    simp only [hv]
    rw [if_neg hnot]

/-! ## Claim C2 -/

/-- C2: after `update_message_status(process_id, docId, "keep")`, the
next `get_messages_for_process_optimized` call for that collection is
never served from a pre-write cached page (the write deleted the page
entry), and — provided `docId` denotes the `i`-th handle of the
requested slice and its decode succeeds — the freshly computed page
contains the document with `status = "keep"`. -/
theorem c2_write_invalidates_page (pyHash : String → Int)
    (sample : Sampler) (st : St) (fs : FS) (t : Int)
    (process_id docId : String) (limit offset : Nat) (hs : List Handle)
    (i : Nat) (h : Handle) (r : SampleDraw)
    (hfs : fs process_id = some hs)
    (hmem : (i, h) ∈
      (((sortDesc Server.mtimeLt hs).drop offset).take limit).enum)
    (hid : process_id ++ "_" ++ h.stem = docId)
    (hsample : sample (Server.msgFilePath process_id h) process_id docId
      (Int.ofNat i) = some r) :
    (Server.get_messages_for_process_optimized pyHash sample
        (Server.update_message_status st process_id docId "keep").2 fs t
        process_id limit offset).1
      = CacheValue.page (Server.load_messages_batch pyHash sample
          (Server.update_message_status st process_id docId "keep").2 fs
          process_id limit offset)
    ∧ ∃ m ∈ (Server.load_messages_batch pyHash sample
          (Server.update_message_status st process_id docId "keep").2 fs
          process_id limit offset).messages,
        m.id = docId ∧ m.status = "keep" := by
  have hcache : dictGet
      ((Server.update_message_status st process_id docId "keep").2).cache
      (Server.pageKey process_id limit offset) = none := by
    show dictGet (invalidate st.cache (Server.invalPred process_id docId))
      (Server.pageKey process_id limit offset) = none
    rw [dictGet_invalidate, invalPred_pageKey]
    rfl
  constructor
  · rw [get_messages_miss pyHash sample _ fs t process_id limit offset
      hcache]
  · have hex : ∃ M, Server.decodeStep pyHash sample
        (Server.update_message_status st process_id docId "keep").2
        process_id (i, h) = some M ∧ M.id = docId ∧ M.status = "keep" := by
      unfold Server.decodeStep Server.create_sample_message_data
      rw [hid, hsample]
      refine ⟨_, rfl, rfl, ?_⟩
      show (dictGet (dictSet st.message_status docId "keep") docId).getD
        "untagged" = "keep"
      rw [dictGet_dictSet_self]
      rfl
    obtain ⟨M, hM, hMid, hMst⟩ := hex
    simp only [Server.load_messages_batch, hfs]
    refine ⟨M, ?_, hMid, hMst⟩
    rw [mem_sortDesc]
    exact List.mem_filterMap.mpr ⟨(i, h), hmem, hM⟩

/-- C2 witness instance: write `keep` on `"P_a"`, then list the first
page of `"P"`. -/
theorem c2_write_invalidates_page_witness :
    fsBA "P" = some [⟨"a", 5⟩, ⟨"b", 9⟩]
    ∧ (1, (⟨"a", 5⟩ : Handle)) ∈
        (((sortDesc Server.mtimeLt [⟨"a", 5⟩, ⟨"b", 9⟩]).drop 0).take 2).enum
    ∧ "P" ++ "_" ++ "a" = "P_a"
    ∧ sampleSameDate (Server.msgFilePath "P" ⟨"a", 5⟩) "P" "P_a"
        (Int.ofNat 1)
      = some { subject := "s", sender := "e", date := "2025-01-01",
               body := "b", preview := "p" }
    ∧ ((Server.get_messages_for_process_optimized pyHash0 sampleSameDate
          (Server.update_message_status st0 "P" "P_a" "keep").2 fsBA 0 "P"
          2 0).1
        = CacheValue.page (Server.load_messages_batch pyHash0 sampleSameDate
            (Server.update_message_status st0 "P" "P_a" "keep").2 fsBA "P"
            2 0)
      ∧ ∃ m ∈ (Server.load_messages_batch pyHash0 sampleSameDate
            (Server.update_message_status st0 "P" "P_a" "keep").2 fsBA "P"
            2 0).messages,
          m.id = "P_a" ∧ m.status = "keep") :=
  ⟨by decide, by decide, by decide, rfl,
    c2_write_invalidates_page pyHash0 sampleSameDate st0 fsBA 0 "P" "P_a"
      2 0 [⟨"a", 5⟩, ⟨"b", 9⟩] 1 ⟨"a", 5⟩
      { subject := "s", sender := "e", date := "2025-01-01", body := "b",
        preview := "p" }
      (by decide) (by decide) (by decide) rfl⟩

/-! ## Claim C7 -/

/-- C7 (amended): when the first `ListPage` call is a cache miss (no
live entry at its time `t1`), a second call for the same
`(collectionId, limit, offset)` at any `t2` with `t2 - t1 < 300` and no
intervening write is served from the cache: it returns the identical
result and leaves the state unchanged, whatever the decoder would do at
the second call (`sample2` is arbitrary, so no recompute happens). -/
theorem c7_cached_idempotence (pyHash : String → Int)
    (sample1 sample2 : Sampler) (st : St) (fs : FS) (t1 t2 : Int)
    (process_id : String) (limit offset : Nat)
    (hmiss : Server.cacheFresh st t1
      (Server.pageKey process_id limit offset) = false)
    (hwin : t2 - t1 < Server.cache_timeout) :
    Server.get_messages_for_process_optimized pyHash sample2
        (Server.get_messages_for_process_optimized pyHash sample1 st fs t1
          process_id limit offset).2 fs t2 process_id limit offset
      = Server.get_messages_for_process_optimized pyHash sample1 st fs t1
          process_id limit offset := by
  rw [get_messages_not_fresh pyHash sample1 st fs t1 process_id limit
    offset hmiss]
  refine get_messages_hit pyHash sample2 _ fs t2 process_id limit offset
    _ ?_ ?_
  · exact dictGet_dictSet_self st.cache
      (Server.pageKey process_id limit offset) _
  · show t2 - ((dictGet (dictSet st.cache_time
        (Server.pageKey process_id limit offset) t1)
        (Server.pageKey process_id limit offset)).getD 0)
      < Server.cache_timeout
    rw [dictGet_dictSet_self]
    exact hwin

/-- C7 witness instance: a miss at time 0, a repeat at time 100 with a
decoder that would fail — the repeat still returns the first result
unchanged. -/
theorem c7_cached_idempotence_witness :
    Server.cacheFresh st0 0 (Server.pageKey "P" 1 0) = false
    ∧ (100 : Int) - 0 < Server.cache_timeout
    ∧ Server.get_messages_for_process_optimized pyHash0 sampleFailA
        (Server.get_messages_for_process_optimized pyHash0 sampleSameDate
          st0 fsBA 0 "P" 1 0).2 fsBA 100 "P" 1 0
      = Server.get_messages_for_process_optimized pyHash0 sampleSameDate
          st0 fsBA 0 "P" 1 0 :=
  ⟨by decide, by decide,
    c7_cached_idempotence pyHash0 sampleSameDate sampleFailA st0 fsBA 0
      100 "P" 1 0 (by decide) (by decide)⟩

/-- A cached page claiming one raw handle (as stored by an earlier call
when the collection still had a file). -/
def pageTotal1 : PageResult :=
  { messages := [], total_count := 1, has_more := false, offset := 0,
    limit := 1 }

/-- A collection `"P"` that exists but holds no `.msg` files. -/
def fsNoFiles : FS := fun p => if p = "P" then some [] else none

/-- No collection exists at all. -/
def fsNone : FS := fun _ => none

/-- A state holding a page entry for `"P"` stored at time 0. -/
def st7 : St :=
  { cache := [(Server.pageKey "P" 1 0, CacheValue.page pageTotal1)],
    cache_time := [(Server.pageKey "P" 1 0, 0)],
    message_status := [], message_comments := [] }

/-- C7 counterexample: the first call (time 299) is served from an
entry stored at time 0; the second call (time 350) lies within the TTL
window of the **first call** (51 s later, no intervening write), yet the
entry has expired, the page is recomputed, and the result differs. -/
theorem c7_ttl_window_counterexample :
    (Server.get_messages_for_process_optimized pyHash0 sampleSameDate st7
        fsNoFiles 299 "P" 1 0).1 = CacheValue.page pageTotal1
    ∧ (350 : Int) - 299 < Server.cache_timeout
    ∧ (Server.get_messages_for_process_optimized pyHash0 sampleSameDate
        (Server.get_messages_for_process_optimized pyHash0 sampleSameDate
          st7 fsNoFiles 299 "P" 1 0).2 fsNoFiles 350 "P" 1 0).1
      ≠ (Server.get_messages_for_process_optimized pyHash0 sampleSameDate
          st7 fsNoFiles 299 "P" 1 0).1 := by
  refine ⟨by decide, by decide, by decide⟩

/-! ## Claim C6 -/

/-- C6 (amended): page/listing entries obey the
`now - storedAt < 300` freshness rule — an expired page entry is
treated as absent and recomputed — but full-document entries are served
whenever present, with **no** freshness test (unbounded until
invalidated). -/
theorem c6_ttl_uniformity :
    (∀ (pyHash : String → Int) (sample : Sampler) (st : St) (now : Int)
        (process_id message_id : String) (v : CacheValue),
      dictGet st.cache ("full_" ++ message_id) = some v →
      Server.get_message_full_content pyHash sample st now process_id
        message_id = some (v, st))
    ∧ (∀ (pyHash : String → Int) (sample : Sampler) (st : St) (fs : FS)
        (now : Int) (process_id : String) (limit offset : Nat),
      ¬(now - ((dictGet st.cache_time
          (Server.pageKey process_id limit offset)).getD 0)
        < Server.cache_timeout) →
      Server.get_messages_for_process_optimized pyHash sample st fs now
          process_id limit offset
        = (CacheValue.page (Server.load_messages_batch pyHash sample st fs
              process_id limit offset),
           { st with
             cache := dictSet st.cache
               (Server.pageKey process_id limit offset)
               (CacheValue.page (Server.load_messages_batch pyHash sample
                  st fs process_id limit offset))
             cache_time := dictSet st.cache_time
               (Server.pageKey process_id limit offset) now })) := by
  constructor
  · intro pyHash sample st now process_id message_id v hv
    unfold Server.get_message_full_content
    simp only [hv]
  · intro pyHash sample st fs now process_id limit offset hexp
    apply get_messages_not_fresh
    unfold Server.cacheFresh
    cases hv : dictGet st.cache (Server.pageKey process_id limit offset) with
    | none => rfl
    | some v => exact decide_eq_false hexp

/-- A small decoded message used as cached full-document content. -/
def docM : Msg :=
  { id := "m", subject := "s", sender := "e", recipients := "r",
    date := "2025-01-01", body := "b", body_preview := "p",
    body_type := "text", status := "untagged", threadId := "t",
    filename := "m.msg", attachments := [], containsThread := false,
    comments := [], has_attachments := false, needs_full_parse := true }

/-- A state holding a full-document entry for `"m"` stored at time 0. -/
def st6 : St :=
  { cache := [("full_m", CacheValue.full docM)],
    cache_time := [("full_m", 0)],
    message_status := [], message_comments := [] }

/-- C6 witness instance: a present full entry is served (here at age
10 s), and an expired page slot (age 400 s over an empty time map) is
recomputed and stored. -/
theorem c6_ttl_uniformity_witness :
    dictGet st6.cache ("full_" ++ "m") = some (CacheValue.full docM)
    ∧ Server.get_message_full_content pyHash0 sampleSameDate st6 10 "P" "m"
        = some (CacheValue.full docM, st6)
    ∧ ¬((400 : Int) - ((dictGet st0.cache_time
          (Server.pageKey "P" 1 0)).getD 0) < Server.cache_timeout)
    ∧ Server.get_messages_for_process_optimized pyHash0 sampleSameDate st0
        fsNoFiles 400 "P" 1 0
      = (CacheValue.page (Server.load_messages_batch pyHash0 sampleSameDate
            st0 fsNoFiles "P" 1 0),
         { st0 with
           cache := dictSet st0.cache (Server.pageKey "P" 1 0)
             (CacheValue.page (Server.load_messages_batch pyHash0
                sampleSameDate st0 fsNoFiles "P" 1 0))
           cache_time := dictSet st0.cache_time (Server.pageKey "P" 1 0)
             400 }) :=
  ⟨by decide,
    c6_ttl_uniformity.1 pyHash0 sampleSameDate st6 10 "P" "m"
      (CacheValue.full docM) (by decide),
    by decide,
    c6_ttl_uniformity.2 pyHash0 sampleSameDate st0 fsNoFiles 400 "P" 1 0
      (by decide)⟩

/-- C6 counterexample: a full-document entry stored at time 0 is still
served at time 1000000, far beyond the 300 s TTL — full entries do
**not** follow the claimed uniform TTL validity rule. -/
theorem c6_stale_full_entry_counterexample :
    Server.get_message_full_content pyHash0 sampleSameDate st6 1000000 "P"
        "m" = some (CacheValue.full docM, st6)
    ∧ ¬((1000000 : Int) - ((dictGet st6.cache_time ("full_" ++ "m")).getD 0)
        < Server.cache_timeout) := by
  refine ⟨by decide, by decide⟩

/-! ## Claim C8 -/

/-- C8 (amended): an annotation write removes exactly the cache entries
whose key contains `messages_{collectionId}` or `full_{documentId}` as
a **substring**, and leaves every other entry unchanged.  (Because the
match is by substring, entries of a different collection whose id
extends the written one are also removed — see the counterexample.) -/
theorem c8_invalidation_frame (st : St)
    (process_id message_id status nowStr : String) (d : CommentData)
    (k : String) :
    dictGet (Server.update_message_status st process_id message_id
        status).2.cache k
      = (if Server.invalPred process_id message_id k then none
         else dictGet st.cache k)
    ∧ dictGet (Server.add_comment_to_message st process_id message_id d
        nowStr).2.cache k
      = (if Server.invalPred process_id message_id k then none
         else dictGet st.cache k) :=
  ⟨dictGet_invalidate st.cache _ k, dictGet_invalidate st.cache _ k⟩

/-- A state holding one page entry belonging to collection `"A_B"`. -/
def st8 : St :=
  { cache := [(Server.pageKey "A_B" 1 0, CacheValue.page pageTotal1)],
    cache_time := [], message_status := [], message_comments := [] }

/-- C8 counterexample: writing a status for a document of collection
`"A"` deletes the page entry of the **different** collection `"A_B"`
(whose key `messages_A_B_1_0` contains the substring `messages_A`),
contradicting the claim that only collection-`"A"` page entries and the
written document's full entry are removed. -/
theorem c8_cross_collection_counterexample :
    dictGet st8.cache (Server.pageKey "A_B" 1 0)
      = some (CacheValue.page pageTotal1)
    ∧ dictGet (Server.update_message_status st8 "A" "m" "keep").2.cache
        (Server.pageKey "A_B" 1 0) = none
    ∧ ("A_B" : String) ≠ "A" := by
  refine ⟨by decide, by decide, by decide⟩

/-! ## Claim C9 -/

/-- C9 (amended): an unknown collection id yields an **ordinary empty
success page** (`total_count = 0`, `has_more = false`) — the very same
value an existing-but-empty collection yields, so nothing
distinguishes it from success; and `get_message_full_content` on a
document that exists nowhere **fabricates** a sample document carrying
the requested id and returns it as a success.  Neither path crashes,
and neither surfaces a structured not-found. -/
theorem c9_not_found_behavior :
    (∀ (pyHash : String → Int) (sample : Sampler) (st : St) (fs : FS)
        (process_id : String) (limit offset : Nat),
      fs process_id = none →
      Server.load_messages_batch pyHash sample st fs process_id limit
          offset
        = { messages := [], total_count := 0, has_more := false,
            offset := offset, limit := limit })
    ∧ (∀ (pyHash : String → Int) (sample : Sampler) (st : St) (fs : FS)
        (process_id : String) (limit offset : Nat),
      fs process_id = some [] →
      Server.load_messages_batch pyHash sample st fs process_id limit
          offset
        = { messages := [], total_count := 0, has_more := false,
            offset := offset, limit := limit })
    ∧ (∀ (pyHash : String → Int) (sample : Sampler) (st : St) (now : Int)
        (process_id message_id : String) (r : SampleDraw),
      dictGet st.cache ("full_" ++ message_id) = none →
      sample (strReplaceAll message_id (process_id ++ "_") "" ++ ".msg")
          process_id message_id (pyHash message_id % 10) = some r →
      ∃ m st', Server.get_message_full_content pyHash sample st now
          process_id message_id = some (CacheValue.full m, st')
        ∧ m.id = message_id) := by
  refine ⟨?_, ?_, ?_⟩
  · intro pyHash sample st fs process_id limit offset hfs
    simp [Server.load_messages_batch, hfs]
  · intro pyHash sample st fs process_id limit offset hfs
    simp [Server.load_messages_batch, hfs, sortDesc]
  · intro pyHash sample st now process_id message_id r hc hsample
    unfold Server.get_message_full_content
    simp only [hc]
    unfold Server.create_sample_message_data
    rw [hsample]
    exact ⟨_, _, rfl, rfl⟩

/-- C9 witness instance: a missing collection and an existing empty
collection produce the same success page, and a never-seen document id
`"P_ghost"` gets a fabricated full document with that id. -/
theorem c9_not_found_behavior_witness :
    fsNone "P" = none
    ∧ Server.load_messages_batch pyHash0 sampleSameDate st0 fsNone "P" 1 0
        = { messages := [], total_count := 0, has_more := false,
            offset := 0, limit := 1 }
    ∧ fsNoFiles "P" = some []
    ∧ Server.load_messages_batch pyHash0 sampleSameDate st0 fsNoFiles "P"
        1 0
        = { messages := [], total_count := 0, has_more := false,
            offset := 0, limit := 1 }
    ∧ dictGet st0.cache ("full_" ++ "P_ghost") = none
    ∧ sampleSameDate (strReplaceAll "P_ghost" ("P" ++ "_") "" ++ ".msg")
        "P" "P_ghost" (pyHash0 "P_ghost" % 10)
      = some { subject := "s", sender := "e", date := "2025-01-01",
               body := "b", preview := "p" }
    ∧ ∃ m st', Server.get_message_full_content pyHash0 sampleSameDate st0
        5 "P" "P_ghost" = some (CacheValue.full m, st')
      ∧ m.id = "P_ghost" :=
  ⟨rfl,
    c9_not_found_behavior.1 pyHash0 sampleSameDate st0 fsNone "P" 1 0 rfl,
    by decide,
    c9_not_found_behavior.2.1 pyHash0 sampleSameDate st0 fsNoFiles "P" 1 0
      (by decide),
    rfl, rfl,
    c9_not_found_behavior.2.2 pyHash0 sampleSameDate st0 5 "P" "P_ghost"
      { subject := "s", sender := "e", date := "2025-01-01", body := "b",
        preview := "p" } rfl rfl⟩

/-- Extracts the id of a successful full-document result. -/
def fullDocId : Option (CacheValue × St) → Option String
  | some (CacheValue.full m, _) => some m.id
  | _ => none

/-- C9 counterexample: the page for a **nonexistent** collection equals
the page for an existing empty one (no distinguishable not-found), and
the full view of the **nonexistent** document `"P_ghost"` is a
fabricated success carrying that id, not a not-found. -/
theorem c9_fabricated_success_counterexample :
    Server.load_messages_batch pyHash0 sampleSameDate st0 fsNone "P" 1 0
      = Server.load_messages_batch pyHash0 sampleSameDate st0 fsNoFiles
          "P" 1 0
    ∧ fullDocId (Server.get_message_full_content pyHash0 sampleSameDate
        st0 5 "P" "P_ghost") = some "P_ghost" := by
  refine ⟨by decide, by decide⟩

/-! ## Claim C3 -/

/-- C3 (amended): the `msg_analyser2.py` handler and the
`msg_analyser.py` Flask route reject a comment body missing the
grouping key `"key"` with a 400 validation error before any mutation
(the state is returned untouched); the optimized `server.py` handler,
however, performs **no** grouping-key validation: it accepts any parsed
body, reports success, and appends the date-stamped comment to the
comment map. -/
theorem c3_missing_key_validation :
    (∀ (st : St2) (process_id message_id : String) (d : CommentData)
        (nowStr : String),
      (dictGet d "key").isNone = true →
      Analyser2.handle_add_comment st process_id message_id (some d)
          nowStr
        = (Resp.err 400 "Missing required field: key", st))
    ∧ (∀ d : CommentData,
      (dictGet d "key").isNone = true →
      Analyser1.add_comment (some d) = Resp.err 400 "Missing field: key")
    ∧ (∀ (st : St) (process_id message_id : String) (d : CommentData)
        (nowStr : String),
      Server.handle_add_comment st process_id message_id (some d) nowStr
        = (Resp.ok "Comment added successfully",
           (Server.add_comment_to_message st process_id message_id d
             nowStr).2)
      ∧ dictGet (Server.add_comment_to_message st process_id message_id d
          nowStr).2.message_comments message_id
        = some (((dictGet st.message_comments message_id).getD [])
            ++ [dictSet d "date" nowStr])) := by
  refine ⟨?_, ?_, ?_⟩
  · intro st process_id message_id d nowStr hkey
    simp [Analyser2.handle_add_comment, hkey]
  · intro d hkey
    simp [Analyser1.add_comment, hkey]
  · intro st process_id message_id d nowStr
    constructor
    · rfl
    · exact dictGet_dictSet_self st.message_comments message_id _

/-- A freshly constructed `msg_analyser2` analyzer state. -/
def st20 : St2 :=
  { cache := [], cache_time := [], message_status := [],
    message_comments := [] }

/-- C3 witness instance: the body `[("text", "hi")]` has no `"key"`
field; `msg_analyser2` and the Flask route reject it leaving state
untouched, while `server.py` accepts and records it. -/
theorem c3_missing_key_validation_witness :
    (dictGet [("text", "hi")] "key").isNone = true
    ∧ Analyser2.handle_add_comment st20 "P" "m" (some [("text", "hi")])
        "2025-01-01T00:00:00"
      = (Resp.err 400 "Missing required field: key", st20)
    ∧ Analyser1.add_comment (some [("text", "hi")])
      = Resp.err 400 "Missing field: key"
    ∧ (Server.handle_add_comment st0 "P" "m" (some [("text", "hi")])
        "2025-01-01T00:00:00"
      = (Resp.ok "Comment added successfully",
         (Server.add_comment_to_message st0 "P" "m" [("text", "hi")]
           "2025-01-01T00:00:00").2)
      ∧ dictGet (Server.add_comment_to_message st0 "P" "m"
          [("text", "hi")] "2025-01-01T00:00:00").2.message_comments "m"
        = some (((dictGet st0.message_comments "m").getD [])
            ++ [dictSet [("text", "hi")] "date" "2025-01-01T00:00:00"])) :=
  ⟨by decide,
    c3_missing_key_validation.1 st20 "P" "m" [("text", "hi")]
      "2025-01-01T00:00:00" (by decide),
    c3_missing_key_validation.2.1 [("text", "hi")] (by decide),
    c3_missing_key_validation.2.2 st0 "P" "m" [("text", "hi")]
      "2025-01-01T00:00:00"⟩

/-- C3 counterexample: in `server.py`, a comment body with **no**
grouping key is not rejected — the handler reports success and the
comment map changes from empty to holding the stamped comment. -/
theorem c3_server_accepts_missing_key_counterexample :
    (Server.handle_add_comment st0 "P" "m" (some [("text", "hi")])
        "2025-01-01T00:00:00").1 = Resp.ok "Comment added successfully"
    ∧ dictGet (Server.handle_add_comment st0 "P" "m"
        (some [("text", "hi")]) "2025-01-01T00:00:00").2.message_comments
        "m"
      = some [[("text", "hi"), ("date", "2025-01-01T00:00:00")]]
    ∧ dictGet st0.message_comments "m" = none := by
  refine ⟨by decide, by decide, by decide⟩

/-! ## Claim C10 -/

/-- C10: for **every** document id — including ids no collection
contains — a status write with a valid enum value succeeds through the
handler and records the status, a comment write succeeds and appends
the stamped comment (creating the entry lazily), and the
`msg_analyser2` status writer behaves the same; no write path reports
not-found. -/
theorem c10_write_paths_never_not_found (st : St) (st2 : St2)
    (process_id message_id status nowStr : String) (d : CommentData)
    (hval : status = "keep" ∨ status = "review" ∨ status = "untagged") :
    Server.handle_update_status st process_id message_id
        (some [("status", status)])
      = (Resp.ok "Status updated successfully",
         (Server.update_message_status st process_id message_id status).2)
    ∧ (Server.update_message_status st process_id message_id status).1
      = true
    ∧ dictGet (Server.update_message_status st process_id message_id
        status).2.message_status message_id = some status
    ∧ (Server.add_comment_to_message st process_id message_id d nowStr).1
      = true
    ∧ dictGet (Server.add_comment_to_message st process_id message_id d
        nowStr).2.message_comments message_id
      = some (((dictGet st.message_comments message_id).getD [])
          ++ [dictSet d "date" nowStr])
    ∧ (Analyser2.update_message_status st2 process_id message_id status).1
      = true
    ∧ dictGet (Analyser2.update_message_status st2 process_id
        message_id status).2.message_status message_id = some status := by
  refine ⟨?_, rfl, ?_, rfl, ?_, rfl, ?_⟩
  · simp [Server.handle_update_status, dictGet, hval,
      Server.update_message_status]
  · exact dictGet_dictSet_self st.message_status message_id status
  · exact dictGet_dictSet_self st.message_comments message_id _
  · exact dictGet_dictSet_self st2.message_status message_id status

/-- C10 witness instance: the unknown document id `"nowhere_doc"` still
accepts a `"keep"` status and a comment through every write path. -/
theorem c10_write_paths_witness :
    ("keep" = "keep" ∨ "keep" = "review" ∨ "keep" = "untagged")
    ∧ (Server.handle_update_status st0 "P" "nowhere_doc"
        (some [("status", "keep")])
      = (Resp.ok "Status updated successfully",
         (Server.update_message_status st0 "P" "nowhere_doc" "keep").2)
    ∧ (Server.update_message_status st0 "P" "nowhere_doc" "keep").1 = true
    ∧ dictGet (Server.update_message_status st0 "P" "nowhere_doc"
        "keep").2.message_status "nowhere_doc" = some "keep"
    ∧ (Server.add_comment_to_message st0 "P" "nowhere_doc"
        [("key", "k1")] "2025-01-01T00:00:00").1 = true
    ∧ dictGet (Server.add_comment_to_message st0 "P" "nowhere_doc"
        [("key", "k1")] "2025-01-01T00:00:00").2.message_comments
        "nowhere_doc"
      = some (((dictGet st0.message_comments "nowhere_doc").getD [])
          ++ [dictSet [("key", "k1")] "date" "2025-01-01T00:00:00"])
    ∧ (Analyser2.update_message_status st20 "P" "nowhere_doc" "keep").1
      = true
    ∧ dictGet (Analyser2.update_message_status st20 "P" "nowhere_doc"
        "keep").2.message_status "nowhere_doc" = some "keep") :=
  ⟨Or.inl rfl,
    c10_write_paths_never_not_found st0 st20 "P" "nowhere_doc" "keep"
      "2025-01-01T00:00:00" [("key", "k1")] (Or.inl rfl)⟩
